import Mathlib

/-!
Verification of the package-manager install helper
(src/utils/runPkgManagerInstall.ts).

The source function builds a single command string from a template literal
and passes it to one execa call with the working directory set to the
projectDir field. The definitions below are a shallow embedding of that
construction; the token machinery (splitChar, cmdTokens) is used only to
state token-level properties about the constructed string.
-/

/-- Modelled from the spec: the closed set of supported package manager
identifiers of the PackageManager union type, which is imported from
./getUserPkgManager and is not among the given source files. -/
def supportedPackageManagers : List String := ["npm", "yarn", "pnpm", "bun"]

/-- The options record taken by runPkgManagerInstall. The packageManager
field is kept as a string, the runtime value of the TypeScript
string-literal union. -/
structure InstallOpts where
  packageManager : String
  devMode : Bool
  projectDir : String
  packages : List String

/-- The install subcommand chosen from the package manager identifier:
for yarn the verb is add, for every other identifier it is install. -/
def installCmd (packageManager : String) : String :=
  if packageManager = "yarn" then packageManager ++ " add"
  else packageManager ++ " install"

/-- The development flag slot: the token -D when devMode is true and the
empty string otherwise. -/
def flag (devMode : Bool) : String := if devMode then "-D" else ""

/-- JavaScript Array.join with a separator string, as used by the
packages.join call in the source. -/
def joinSep (sep : String) : List String → String
  | [] => ""
  | [p] => p
  | p :: q :: ps => p ++ sep ++ joinSep sep (q :: ps)

/-- The full command string built by runPkgManagerInstall: the template
literal interpolating installCmd, the flag slot and the joined packages,
each pair separated by a single literal space. -/
def fullCmd (o : InstallOpts) : String :=
  installCmd o.packageManager ++ " " ++ flag o.devMode ++ " " ++ joinSep " " o.packages

/-- One execa invocation: the command string and the cwd option passed to
it. -/
structure ExecaCall where
  cmd : String
  cwd : String
  deriving DecidableEq

/-- Shallow embedding of the body of runPkgManagerInstall: on every input
the function performs exactly one execa call, with the constructed command
and with cwd set to projectDir. -/
def runPkgManagerInstall (o : InstallOpts) : ExecaCall :=
  { cmd := fullCmd o, cwd := o.projectDir }

/-- The processes spawned by one call of runPkgManagerInstall: always
exactly the single execa invocation, whatever the input is; the body has
no validation branch and no error path of its own. -/
def spawnedProcesses (o : InstallOpts) : List ExecaCall :=
  [runPkgManagerInstall o]

/-- Modelled from the spec: execa is imported from ./execAsync, which is
not among the given source files. Per the spec it resolves when the
awaited child process exits with status 0 and rejects with an error
carrying the exit code on a non-zero status; runPkgManagerInstall awaits
it and resolves with no value on success. -/
def execaResult (_call : ExecaCall) (exitCode : Nat) : Except Nat Unit :=
  if exitCode = 0 then Except.ok () else Except.error exitCode

/-- Head chunk and remaining chunks of a character list split at a
separator character. -/
def splitChar1 (c : Char) : List Char → List Char × List (List Char)
  | [] => ([], [])
  | x :: xs =>
    let r := splitChar1 c xs
    if x = c then ([], r.1 :: r.2) else (x :: r.1, r.2)

/-- All chunks of a character list split at a separator character; the
result is never empty. -/
def splitChar (c : Char) (l : List Char) : List (List Char) :=
  (splitChar1 c l).1 :: (splitChar1 c l).2

/-- The space-separated tokens of a command string. -/
def cmdTokens (s : String) : List String :=
  (splitChar ' ' s.data).map String.mk

/-- The string p is a leading piece of the string s. -/
def StartsWith (p s : String) : Prop := ∃ r, s = p ++ r

theorem splitChar1_append (c : Char) (a b : List Char) :
    splitChar1 c (a ++ c :: b) =
      ((splitChar1 c a).1, (splitChar1 c a).2 ++ splitChar c b) := by
  induction a with
  | nil => simp [splitChar1, splitChar]
  | cons x xs ih =>
    simp only [List.cons_append, splitChar1, ih]
    by_cases hx : x = c <;> simp [hx, ih]

theorem splitChar_append (c : Char) (a b : List Char) :
    splitChar c (a ++ c :: b) = splitChar c a ++ splitChar c b := by
  simp [splitChar, splitChar1_append]

theorem splitChar1_no_sep (c : Char) (l : List Char) (h : c ∉ l) :
    splitChar1 c l = (l, []) := by
  induction l with
  | nil => rfl
  | cons x xs ih =>
    simp only [List.mem_cons, not_or] at h
    have hx : x ≠ c := Ne.symm h.1
    simp [splitChar1, hx, ih h.2]

theorem splitChar_no_sep (c : Char) (l : List Char) (h : c ∉ l) :
    splitChar c l = [l] := by
  simp [splitChar, splitChar1_no_sep c l h]

theorem cmdTokens_no_space (s : String) (h : ' ' ∉ s.data) :
    cmdTokens s = [s] := by
  unfold cmdTokens
  rw [splitChar_no_sep _ _ h]
  rfl

theorem cmdTokens_append (a b : String) :
    cmdTokens (a ++ " " ++ b) = cmdTokens a ++ cmdTokens b := by
  unfold cmdTokens
  have hd : (a ++ " " ++ b).data = a.data ++ ' ' :: b.data := by
    rw [String.data_append, String.data_append, List.append_assoc]
    rfl
  rw [hd, splitChar_append, List.map_append]

theorem cmdTokens_fullCmd (o : InstallOpts) :
    cmdTokens (fullCmd o) =
      cmdTokens (installCmd o.packageManager) ++ cmdTokens (flag o.devMode) ++
        cmdTokens (joinSep " " o.packages) := by
  have h1 : fullCmd o =
      (installCmd o.packageManager ++ " " ++ flag o.devMode) ++ " " ++
        joinSep " " o.packages := rfl
  rw [h1, cmdTokens_append, cmdTokens_append]

theorem cmdTokens_joinSep (ps : List String) :
    ps ≠ [] → (∀ p ∈ ps, ' ' ∉ p.data) →
    cmdTokens (joinSep " " ps) = ps := by
  induction ps with
  | nil => intro h _; cases h rfl
  | cons p qs ih =>
    intro _ hsp
    cases qs with
    | nil =>
      have h1 : joinSep " " [p] = p := rfl
      rw [h1, cmdTokens_no_space p (hsp p (List.mem_cons_self p []))]
    | cons q rs =>
      have h1 : joinSep " " (p :: q :: rs) = p ++ " " ++ joinSep " " (q :: rs) := rfl
      rw [h1, cmdTokens_append,
        cmdTokens_no_space p (hsp p (List.mem_cons_self p (q :: rs))),
        ih (by simp) (fun r hr => hsp r (List.mem_cons_of_mem p hr))]
      rfl

theorem cmdTokens_installCmd (pm : String) (h : ' ' ∉ pm.data) :
    cmdTokens (installCmd pm) = [pm, if pm = "yarn" then "add" else "install"] := by
  by_cases hy : pm = "yarn"
  · subst hy; decide
  · rw [if_neg hy]
    have h1 : installCmd pm = pm ++ " " ++ "install" := by
      rw [installCmd, if_neg hy, String.append_assoc]
      rfl
    rw [h1, cmdTokens_append, cmdTokens_no_space pm h]
    rfl

theorem supported_no_space (pm : String)
    (hm : pm ∈ supportedPackageManagers) : ' ' ∉ pm.data := by
  simp only [supportedPackageManagers, List.mem_cons, List.not_mem_nil,
    or_false] at hm
  rcases hm with h | h | h | h <;> rw [h] <;> decide

theorem fullCmd_startsWith_installCmd (o : InstallOpts) :
    StartsWith (installCmd o.packageManager) (fullCmd o) :=
  ⟨" " ++ flag o.devMode ++ " " ++ joinSep " " o.packages, by
    simp [fullCmd, String.append_assoc]⟩

/-- C1: for every install request over a supported package manager
identifier, the constructed command starts with yarn add when the
identifier is yarn, and with the identifier followed by a space and
install otherwise. -/
theorem C1_install_base (o : InstallOpts)
    (hm : o.packageManager ∈ supportedPackageManagers) :
    (o.packageManager = "yarn" → StartsWith "yarn add" (fullCmd o)) ∧
    (o.packageManager ≠ "yarn" →
      StartsWith (o.packageManager ++ " install") (fullCmd o)) := by
  constructor
  · intro hy
    have h2 : installCmd o.packageManager = "yarn add" := by
      rw [installCmd, if_pos hy, hy]
      rfl
    exact h2 ▸ fullCmd_startsWith_installCmd o
  · intro hy
    have h2 : installCmd o.packageManager = o.packageManager ++ " install" := by
      rw [installCmd, if_neg hy]
    exact h2 ▸ fullCmd_startsWith_installCmd o

/-- Witness for C1 at a concrete request. -/
theorem C1_install_base_witness :
    StartsWith ("pnpm" ++ " install") (fullCmd ⟨"pnpm", false, "/tmp/proj", ["zod"]⟩) :=
  (C1_install_base ⟨"pnpm", false, "/tmp/proj", ["zod"]⟩ (by decide)).2 (by decide)

/-- C2 counterexample: an unsupported identifier does not fail fast; the
body has no validation and still performs the execa call, so a process
spawn is attempted with the identifier spliced into the command. -/
theorem C2_no_validation_counterexample :
    "foo" ∉ supportedPackageManagers ∧
    spawnedProcesses ⟨"foo", false, "/tmp/proj", ["zod"]⟩ =
      [⟨"foo install  zod", "/tmp/proj"⟩] :=
  ⟨by decide, by decide⟩

/-- C2 amended: the function performs no runtime validation of the
packageManager field and no ConfigurationError exists in the code;
unsupported values are excluded only by the static PackageManager type.
For any request carrying an unsupported identifier the function still
spawns its single process, with a command starting with the identifier
followed by a space and install. -/
theorem C2_unsupported_still_spawns (o : InstallOpts)
    (h : o.packageManager ∉ supportedPackageManagers) :
    spawnedProcesses o ≠ [] ∧
    StartsWith (o.packageManager ++ " install") (fullCmd o) := by
  have hy : o.packageManager ≠ "yarn" := by
    intro he
    exact h (by rw [he]; decide)
  refine ⟨by simp [spawnedProcesses], ?_⟩
  have h2 : installCmd o.packageManager = o.packageManager ++ " install" := by
    rw [installCmd, if_neg hy]
  exact h2 ▸ fullCmd_startsWith_installCmd o

/-- Witness for C2 amended at a concrete unsupported identifier. -/
theorem C2_unsupported_still_spawns_witness :
    spawnedProcesses ⟨"foo", true, "/x", []⟩ ≠ [] ∧
    StartsWith ("foo" ++ " install") (fullCmd ⟨"foo", true, "/x", []⟩) :=
  C2_unsupported_still_spawns ⟨"foo", true, "/x", []⟩ (by decide)

/-- C3 counterexample: with devMode false the flag slot is the empty
string, so the scenario-1 request yields a command with two consecutive
spaces between the subcommand and the package list. -/
theorem C3_consecutive_spaces_counterexample :
    fullCmd ⟨"npm", false, "/tmp/proj", ["zod"]⟩ = "npm install  zod" ∧
    (fullCmd ⟨"npm", false, "/tmp/proj", ["zod"]⟩).data =
      "npm install".data ++ ' ' :: ' ' :: "zod".data :=
  ⟨by decide, by decide⟩

/-- C3 amended: the three interpolated pieces are joined by single literal
spaces, but when devMode is false the flag piece is the empty string, so
the subcommand and the joined package list end up separated by two
consecutive spaces; when devMode is true the separators around -D are
single spaces. -/
theorem C3_join_with_empty_flag (o : InstallOpts) :
    (o.devMode = true →
      fullCmd o = installCmd o.packageManager ++ " -D " ++ joinSep " " o.packages) ∧
    (o.devMode = false →
      fullCmd o = installCmd o.packageManager ++ "  " ++ joinSep " " o.packages) := by
  constructor <;> intro h <;>
    simp only [fullCmd, flag, h, if_true, if_false, String.append_assoc] <;> rfl

/-- Witness for C3 amended at a concrete request. -/
theorem C3_join_with_empty_flag_witness :
    fullCmd ⟨"npm", false, "/tmp/proj", ["zod"]⟩ =
      installCmd "npm" ++ "  " ++ joinSep " " ["zod"] :=
  (C3_join_with_empty_flag ⟨"npm", false, "/tmp/proj", ["zod"]⟩).2 rfl

/-- C4 counterexample: with devMode false the token -D can still occur in
the constructed command, because package names are spliced in verbatim; a
request whose package list contains the name -D produces it. -/
theorem C4_flag_counterexample :
    (⟨"npm", false, "/tmp/proj", ["-D"]⟩ : InstallOpts).devMode = false ∧
    "-D" ∈ cmdTokens (fullCmd ⟨"npm", false, "/tmp/proj", ["-D"]⟩) :=
  ⟨rfl, by decide⟩

/-- C4 amended: for a supported identifier, when devMode is true the
command tokens are the subcommand tokens, then -D immediately after the
install or add verb, then the package tokens; when devMode is false the
token -D is absent provided it does not occur among the tokens of the
joined package list. -/
theorem C4_dev_flag (o : InstallOpts)
    (hm : o.packageManager ∈ supportedPackageManagers) :
    (o.devMode = true →
      cmdTokens (fullCmd o) =
        cmdTokens (installCmd o.packageManager) ++
          "-D" :: cmdTokens (joinSep " " o.packages) ∧
      cmdTokens (installCmd o.packageManager) =
        [o.packageManager,
          if o.packageManager = "yarn" then "add" else "install"]) ∧
    (o.devMode = false → "-D" ∉ cmdTokens (joinSep " " o.packages) →
      "-D" ∉ cmdTokens (fullCmd o)) := by
  have hsp : ' ' ∉ o.packageManager.data := supported_no_space _ hm
  have hm2 := hm
  simp only [supportedPackageManagers, List.mem_cons, List.not_mem_nil,
    or_false] at hm2
  constructor
  · intro hd
    refine ⟨?_, cmdTokens_installCmd _ hsp⟩
    rw [cmdTokens_fullCmd, hd,
      (by decide : cmdTokens (flag true) = ["-D"]), List.append_assoc]
    rfl
  · intro hd hpkg hmem
    rw [cmdTokens_fullCmd, hd] at hmem
    rcases List.mem_append.1 hmem with h2 | h2
    · rcases List.mem_append.1 h2 with h3 | h3
      · rw [cmdTokens_installCmd _ hsp] at h3
        rcases hm2 with h | h | h | h <;> rw [h] at h3 <;> revert h3 <;> decide
      · revert h3; decide
    · exact hpkg h2

/-- Witness for C4 amended at the scenario-2 request. -/
theorem C4_dev_flag_witness :
    cmdTokens (fullCmd ⟨"yarn", true, "/tmp/proj", ["typescript", "eslint"]⟩) =
      cmdTokens (installCmd "yarn") ++
        "-D" :: cmdTokens (joinSep " " ["typescript", "eslint"]) :=
  ((C4_dev_flag ⟨"yarn", true, "/tmp/proj", ["typescript", "eslint"]⟩
    (by decide)).1 rfl).1

/-- C5: for every request with a non-empty package list of space-free
names, the tokens of the constructed command are the subcommand and flag
tokens followed by exactly the package names, in input order, with no
duplication or omission. -/
theorem C5_packages_in_order (o : InstallOpts) (hne : o.packages ≠ [])
    (hsp : ∀ p ∈ o.packages, ' ' ∉ p.data) :
    cmdTokens (fullCmd o) =
      (cmdTokens (installCmd o.packageManager) ++ cmdTokens (flag o.devMode)) ++
        o.packages := by
  rw [cmdTokens_fullCmd, cmdTokens_joinSep o.packages hne hsp]

/-- Witness for C5 at a concrete two-package request. -/
theorem C5_packages_in_order_witness :
    cmdTokens (fullCmd ⟨"npm", false, "/tmp/proj", ["zod", "prisma"]⟩) =
      (cmdTokens (installCmd "npm") ++ cmdTokens (flag false)) ++
        ["zod", "prisma"] :=
  C5_packages_in_order ⟨"npm", false, "/tmp/proj", ["zod", "prisma"]⟩
    (by decide) (by decide)

/-- C6: the scenario-1 request builds exactly the command string with two
spaces between install and zod, and the single execa call runs it with the
working directory /tmp/proj. -/
theorem C6_scenario_npm :
    fullCmd ⟨"npm", false, "/tmp/proj", ["zod"]⟩ = "npm install  zod" ∧
    runPkgManagerInstall ⟨"npm", false, "/tmp/proj", ["zod"]⟩ =
      ⟨"npm install  zod", "/tmp/proj"⟩ :=
  ⟨by decide, by decide⟩

/-- C7: the scenario-2 request builds exactly the command
yarn add -D typescript eslint. -/
theorem C7_scenario_yarn :
    fullCmd ⟨"yarn", true, "/tmp/proj", ["typescript", "eslint"]⟩ =
      "yarn add -D typescript eslint" := by
  decide

/-- C8: for every request, the awaited execa call resolves with no value
on exit status 0 and yields a failure carrying the exit code on any
non-zero exit status. -/
theorem C8_exit_status (o : InstallOpts) (exitCode : Nat) :
    (exitCode = 0 →
      execaResult (runPkgManagerInstall o) exitCode = Except.ok ()) ∧
    (exitCode ≠ 0 →
      execaResult (runPkgManagerInstall o) exitCode = Except.error exitCode) := by
  constructor <;> intro h <;> simp [execaResult, h]

/-- Witness for C8 at exit status 1. -/
theorem C8_exit_status_witness :
    execaResult (runPkgManagerInstall ⟨"npm", false, "/tmp/proj", ["zod"]⟩) 1 =
      Except.error 1 :=
  (C8_exit_status ⟨"npm", false, "/tmp/proj", ["zod"]⟩ 1).2 (by decide)

/-- C9 counterexample: with an empty package list and devMode false the
constructed command carries two trailing spaces, not the single one of the
example string in the claim. -/
theorem C9_empty_packages_counterexample :
    fullCmd ⟨"npm", false, "/tmp/proj", []⟩ ≠ "npm install " ∧
    fullCmd ⟨"npm", false, "/tmp/proj", []⟩ = "npm install  " :=
  ⟨by decide, by decide⟩

/-- C9 amended: with an empty package list the function does not
short-circuit; its single execa call is still performed, and with devMode
false the command is the bare subcommand followed by two trailing spaces,
one for the empty flag slot and one for the empty package join. -/
theorem C9_empty_packages (o : InstallOpts) (h : o.packages = []) :
    spawnedProcesses o = [⟨fullCmd o, o.projectDir⟩] ∧
    (o.devMode = false → fullCmd o = installCmd o.packageManager ++ "  ") := by
  refine ⟨rfl, ?_⟩
  intro hd
  simp only [fullCmd, flag, h, hd, if_false, joinSep, String.append_assoc]
  rfl

/-- Witness for C9 amended at a concrete empty-package request. -/
theorem C9_empty_packages_witness :
    spawnedProcesses ⟨"npm", false, "/tmp/proj", []⟩ =
      [⟨fullCmd ⟨"npm", false, "/tmp/proj", []⟩, "/tmp/proj"⟩] ∧
    fullCmd ⟨"npm", false, "/tmp/proj", []⟩ = installCmd "npm" ++ "  " :=
  ⟨(C9_empty_packages ⟨"npm", false, "/tmp/proj", []⟩ rfl).1,
   (C9_empty_packages ⟨"npm", false, "/tmp/proj", []⟩ rfl).2 rfl⟩

/-- C10: the constructed command text depends only on the packageManager,
devMode and packages fields; two requests agreeing on those three fields
produce the identical command, and projectDir only becomes the working
directory of the spawned process. -/
theorem C10_command_ignores_projectDir (o₁ o₂ : InstallOpts)
    (hpm : o₁.packageManager = o₂.packageManager)
    (hdev : o₁.devMode = o₂.devMode)
    (hpkg : o₁.packages = o₂.packages) :
    (runPkgManagerInstall o₁).cmd = (runPkgManagerInstall o₂).cmd ∧
    (runPkgManagerInstall o₁).cwd = o₁.projectDir ∧
    (runPkgManagerInstall o₂).cwd = o₂.projectDir := by
  refine ⟨?_, rfl, rfl⟩
  show fullCmd o₁ = fullCmd o₂
  rw [fullCmd, fullCmd, hpm, hdev, hpkg]

/-- Witness for C10 at two concrete requests differing only in
projectDir. -/
theorem C10_command_ignores_projectDir_witness :
    (runPkgManagerInstall ⟨"npm", true, "/a", ["zod"]⟩).cmd =
      (runPkgManagerInstall ⟨"npm", true, "/b", ["zod"]⟩).cmd ∧
    (runPkgManagerInstall ⟨"npm", true, "/a", ["zod"]⟩).cwd = "/a" ∧
    (runPkgManagerInstall ⟨"npm", true, "/b", ["zod"]⟩).cwd = "/b" :=
  C10_command_ignores_projectDir ⟨"npm", true, "/a", ["zod"]⟩
    ⟨"npm", true, "/b", ["zod"]⟩ rfl rfl rfl
